import Mathlib

/-!
# Verification of the `attn` post store and feed-capture loop

This file gives a shallow embedding, in Lean 4, of the two core components of
the `attn` repository:

* `PostDB` (`src/post-db.ts`): a JSON-document-backed store of `Post` records
  with a persisted navigation pointer, deduplicating insertion, rating updates,
  windowed pagination, and save/load round-tripping through an ISO-8601
  timestamp serialization;
* the feed-capture loops (`src/social-post-gatherer.ts` and its sibling
  screenshot-gathering module): stateful scroll-and-capture algorithms with
  stall detection and scroll-for-more retry logic.

JavaScript numbers that can go negative are modelled as `Int`; epoch-millisecond
timestamps as `Nat`; `undefined`/`null` optional fields as `Option`; JS string
truthiness (`undefined` and `""` are falsy) is modelled explicitly.  Each
mutating method is embedded as a function `PostDBData → ret × PostDBData × Bool`
where the final `Bool` records whether `saveDB` (a rewrite of the backing file)
was invoked.  Browser-driven code is embedded by treating the page as an oracle
supplying the outcome of each DOM query.
-/

namespace Attn

/-- JS truthiness of an optional string: `undefined` and `""` are falsy,
every other string is truthy. -/
def strTruthy : Option String → Bool
  | none => false
  | some s => !s.isEmpty

/-- JS `x || d` for an optional string `x`. -/
def jsOrStr : Option String → String → String
  | none, d => d
  | some s, d => if s.isEmpty then d else s

/-- JS `x || d` for an optional integer `x` (`undefined` and `0` are falsy). -/
def jsOrInt : Option Int → Int → Int
  | none, d => d
  | some x, d => if x = 0 then d else x

/-- A stored post record (`interface Post` in `src/post-db.ts`).
`timestamp` is the creation instant in epoch milliseconds; `rating` is
`number | null`. -/
structure Post where
  id : String
  description : String
  timestamp : Nat
  rating : Option Int
  platform : Option String
  originalPostId : Option String
  platformUniqueId : Option String
  contentHash : Option String
  screenshotPath : String
  category : Option String
  deriving Repr, DecidableEq

/-- The in-memory state of a `PostDB` (`interface PostDBData`). -/
structure PostDBData where
  posts : List Post
  currentIndex : Int
  version : String
  deriving Repr, DecidableEq

/-- The state a fresh `PostDB` starts from. -/
def emptyData : PostDBData := ⟨[], 0, "1.0.0"⟩

/-- The result shape of the pagination queries (`interface PaginatedResult`). -/
structure PaginatedResult where
  posts : List Post
  currentIndex : Int
  totalPosts : Nat
  hasMore : Bool
  hasPrevious : Bool
  deriving Repr, DecidableEq

/-- The per-post dedup predicate from `PostDB.postExists`: first compare
non-empty platform unique ids, else non-empty content hashes, else fall back to
`(description, screenshotPath)` equality. -/
def postMatches (description screenshotPath : String)
    (platformUniqueId contentHash : Option String) (post : Post) : Bool :=
  if strTruthy platformUniqueId && strTruthy post.platformUniqueId then
    post.platformUniqueId == platformUniqueId
  else if strTruthy contentHash && strTruthy post.contentHash then
    post.contentHash == contentHash
  else
    post.description == description && post.screenshotPath == screenshotPath

/-- `PostDB.postExists`: does some stored post match the candidate under the
three-tier dedup rule? -/
def postExists (data : PostDBData) (description screenshotPath : String)
    (platformUniqueId contentHash : Option String) : Bool :=
  data.posts.any (postMatches description screenshotPath platformUniqueId contentHash)

/-- The character sanitization `replace(/[^a-zA-Z0-9]/g, '_')`. -/
def sanitizeChar (c : Char) : Char :=
  if ('a' ≤ c && c ≤ 'z') || ('A' ≤ c && c ≤ 'Z') || ('0' ≤ c && c ≤ '9') then c else '_'

/-- `PostDB.generatePostId`: platform-based id when a platform and a truthy
platform unique id are present, else a sanitized content slug; both suffixed
with the current epoch milliseconds (`Date.now()`, the `now` argument). -/
def generatePostId (description screenshotPath : String)
    (platform platformUniqueId : Option String) (now : Nat) : String :=
  if strTruthy platformUniqueId && strTruthy platform then
    (platform.getD "").toLower ++ "_" ++ platformUniqueId.getD "" ++ "_" ++ toString now
  else
    let content := description.take 100 ++ "_" ++ screenshotPath ++ "_" ++ jsOrStr platform "unknown"
    (content.map sanitizeChar).take 50 ++ "_" ++ toString now

/-- `PostDB.addPost`.  Returns the new id (or `none` for a duplicate), the new
state, and whether `saveDB` ran.  `now` stands for the call instant used both
for `Date.now()` in the generated id and for the `new Date()` timestamp. -/
def addPost (data : PostDBData) (description screenshotPath : String)
    (rating : Option Int) (platform originalPostId platformUniqueId contentHash category : Option String)
    (now : Nat) : Option String × PostDBData × Bool :=
  if postExists data description screenshotPath platformUniqueId contentHash then
    (none, data, false)
  else
    let post : Post :=
      { id := generatePostId description screenshotPath platform platformUniqueId now
        description := description
        timestamp := now
        rating := rating
        platform := platform
        originalPostId := originalPostId
        platformUniqueId := platformUniqueId
        contentHash := contentHash
        screenshotPath := screenshotPath
        category := category }
    (some post.id, { data with posts := data.posts ++ [post] }, true)

/-- Set the rating of the first post whose id matches (the `find`-then-mutate
of `PostDB.updateRating`). -/
def setRatingFirst (postId : String) (rating : Int) : List Post → List Post
  | [] => []
  | p :: ps =>
    if p.id == postId then { p with rating := some rating } :: ps
    else p :: setRatingFirst postId rating ps

/-- `PostDB.updateRating`: locate by id; absent ⇒ `false` with no mutation;
present ⇒ set the rating (no range validation) and persist. -/
def updateRating (data : PostDBData) (postId : String) (rating : Int) :
    Bool × PostDBData × Bool :=
  if data.posts.any (fun p => p.id == postId) then
    (true, { data with posts := setRatingFirst postId rating data.posts }, true)
  else
    (false, data, false)

/-- `PostDB.goToIndex`: fails (returns `false`, no mutation) outside
`[0, posts.length - 1]`. -/
def goToIndex (data : PostDBData) (index : Int) : Bool × PostDBData × Bool :=
  if index < 0 || (data.posts.length : Int) ≤ index then
    (false, data, false)
  else
    (true, { data with currentIndex := index }, true)

/-- `PostDB.moveForward`: clamp `currentIndex + steps` to
`posts.length - 1`; report a boundary no-op as `false`. -/
def moveForward (data : PostDBData) (steps : Int) : Bool × PostDBData × Bool :=
  let newIndex := min (data.currentIndex + steps) ((data.posts.length : Int) - 1)
  if newIndex = data.currentIndex then
    (false, data, false)
  else
    (true, { data with currentIndex := newIndex }, true)

/-- `PostDB.moveBackward`: clamp `currentIndex - steps` to `0`; report a
boundary no-op as `false`. -/
def moveBackward (data : PostDBData) (steps : Int) : Bool × PostDBData × Bool :=
  let newIndex := max (data.currentIndex - steps) 0
  if newIndex = data.currentIndex then
    (false, data, false)
  else
    (true, { data with currentIndex := newIndex }, true)

/-- `PostDB.deletePost`: remove by id (`findIndex` + `splice`), re-clamping
`currentIndex` to `max(0, length - 1)` when it now exceeds the new length. -/
def deletePost (data : PostDBData) (postId : String) : Bool × PostDBData × Bool :=
  match (data.posts.findIdx? fun p => p.id == postId) with
  | none => (false, data, false)
  | some i =>
    let posts := data.posts.eraseIdx i
    let ci :=
      if (posts.length : Int) ≤ data.currentIndex then
        max 0 ((posts.length : Int) - 1)
      else data.currentIndex
    (true, { posts := posts, currentIndex := ci, version := data.version }, true)

/-- `PostDB.clearAll`: empty the sequence and reset the pointer. -/
def clearAll (data : PostDBData) : Unit × PostDBData × Bool :=
  ((), { data with posts := [], currentIndex := 0 }, true)

/-- The comparator `(a, b) => b.timestamp.getTime() - a.timestamp.getTime()`:
`a` may stay before `b` exactly when `b.timestamp ≤ a.timestamp`. -/
def tsDesc (a b : Post) : Bool := b.timestamp ≤ a.timestamp

/-- JS `array.slice(a, b)` for the non-negative indices used by `getPosts`. -/
def sliceList (l : List Post) (a b : Int) : List Post :=
  (l.take b.toNat).drop a.toNat

/-- `PostDB.getPosts`: windowed pagination around the pointer.  The method is
read-only, so the embedding returns the unchanged state and `saved = false`
alongside the paginated result. -/
def getPosts (data : PostDBData) (pageSize offsetFromCurrent : Int) :
    PaginatedResult × PostDBData × Bool :=
  let totalPosts := data.posts.length
  if totalPosts = 0 then
    (⟨[], 0, 0, false, false⟩, data, false)
  else
    let targetIndex := max 0 (min (data.currentIndex + offsetFromCurrent) ((totalPosts : Int) - 1))
    let halfPage := Int.fdiv pageSize 2
    let startIndex := max 0 (targetIndex - halfPage)
    let adjustedStartIndex := max 0 (min startIndex ((totalPosts : Int) - pageSize))
    let actualEndIndex := min (totalPosts : Int) (adjustedStartIndex + pageSize)
    let posts := (sliceList data.posts adjustedStartIndex actualEndIndex).mergeSort tsDesc
    (⟨posts, data.currentIndex, totalPosts,
        decide (actualEndIndex < (totalPosts : Int)), decide (0 < adjustedStartIndex)⟩,
      data, false)

/-! ## Operation sequences over the store -/

/-- One public mutating operation of `PostDB`. -/
inductive Op where
  | addPost (description screenshotPath : String) (rating : Option Int)
      (platform originalPostId platformUniqueId contentHash category : Option String) (now : Nat)
  | updateRating (postId : String) (rating : Int)
  | deletePost (postId : String)
  | goToIndex (index : Int)
  | moveForward (steps : Int)
  | moveBackward (steps : Int)
  | clearAll
  deriving Repr, DecidableEq

/-- The state after one public operation. -/
def applyOp (data : PostDBData) : Op → PostDBData
  | .addPost d sp r p o pid ch c now => (addPost data d sp r p o pid ch c now).2.1
  | .updateRating id r => (updateRating data id r).2.1
  | .deletePost id => (deletePost data id).2.1
  | .goToIndex i => (goToIndex data i).2.1
  | .moveForward s => (moveForward data s).2.1
  | .moveBackward s => (moveBackward data s).2.1
  | .clearAll => (clearAll data).2.1

/-- The state reached from the empty store by a sequence of public operations. -/
def execOps (ops : List Op) : PostDBData :=
  ops.foldl applyOp emptyData

/-- No two stored posts share the same non-empty `platformUniqueId`. -/
def UniquePid (posts : List Post) : Prop :=
  posts.Pairwise fun p q =>
    ∀ s : String, s ≠ "" → p.platformUniqueId = some s → q.platformUniqueId ≠ some s

/-! ## ISO-8601 timestamp serialization

`saveDB` runs `JSON.stringify(this.data)`, which serializes each `Date` through
`Date.prototype.toJSON`, i.e. `toISOString()`: `YYYY-MM-DDTHH:mm:ss.sssZ` for
years 0–9999.  `loadDB` turns the strings back into instants with
`new Date(string)`.  Both directions are implemented here over epoch
milliseconds (proleptic Gregorian calendar, as JS `Date` uses). -/

/-- Gregorian leap-year rule. -/
def isLeapYear (y : Nat) : Bool :=
  (y % 4 == 0 && y % 100 != 0) || y % 400 == 0

/-- Number of days in calendar year `y`. -/
def daysInYear (y : Nat) : Nat :=
  if isLeapYear y then 366 else 365

/-- The lengths of the 12 months of a (non-)leap year. -/
def monthLengths (leap : Bool) : List Nat :=
  [31, if leap then 29 else 28, 31, 30, 31, 30, 31, 31, 30, 31, 30, 31]

/-- Days from 1970-01-01 to January 1 of year `1970 + k`. -/
def daysToYear : Nat → Nat
  | 0 => 0
  | k + 1 => daysToYear k + daysInYear (1970 + k)

/-- Split a day count (counted from January 1 of year `y`) into the year it
falls in and the day-of-year; every step consumes at least 365 days, so any
`fuel ≥ days / 365 + 1` suffices for the recursion. -/
def yearSplit : (fuel : Nat) → (y days : Nat) → Nat × Nat
  | 0, y, days => (y, days)
  | fuel + 1, y, days =>
    if days < daysInYear y then (y, days)
    else yearSplit fuel (y + 1) (days - daysInYear y)

/-- Split a day-of-year into a month index and a day-of-month, given the list
of month lengths. -/
def monthSplit : List Nat → Nat → Nat × Nat
  | [], d => (0, d)
  | m :: ms, d =>
    if d < m then (0, d)
    else
      let r := monthSplit ms (d - m)
      (r.1 + 1, r.2)

/-- The decimal digit character for `n % 10`. -/
def digitChar (n : Nat) : Char := Char.ofNat (48 + n)

/-- Zero-padded `k`-digit decimal rendering of `n`, prepended to `acc`. -/
def padNum : (k n : Nat) → List Char → List Char
  | 0, _, acc => acc
  | k + 1, n, acc => padNum k (n / 10) (digitChar (n % 10) :: acc)

/-- `Date.prototype.toISOString` for an epoch-millisecond instant in the
four-digit-year range: `YYYY-MM-DDTHH:mm:ss.sssZ`. -/
def toISOString (t : Nat) : String :=
  let days := t / 86400000
  let ys := yearSplit (days / 365 + 1) 1970 days
  let ms := monthSplit (monthLengths (isLeapYear ys.1)) ys.2
  String.mk
    (padNum 4 ys.1 ('-' :: padNum 2 (ms.1 + 1) ('-' :: padNum 2 (ms.2 + 1)
      ('T' :: padNum 2 (t / 3600000 % 24) (':' :: padNum 2 (t / 60000 % 60)
      (':' :: padNum 2 (t / 1000 % 60) ('.' :: padNum 3 (t % 1000) ['Z'])))))))

/-- Numeric value of a decimal digit character. -/
def digitVal (c : Char) : Nat := c.toNat - 48

/-- `new Date(string)` on a `YYYY-MM-DDTHH:mm:ss.sssZ` string: the epoch
milliseconds, or `none` when the string is not of that shape (an invalid
date). -/
def parseISOChars : List Char → Option Nat
  | [y1, y2, y3, y4, '-', m1, m2, '-', d1, d2, 'T',
     h1, h2, ':', i1, i2, ':', s1, s2, '.', f1, f2, f3, 'Z'] =>
    let y := digitVal y1 * 1000 + digitVal y2 * 100 + digitVal y3 * 10 + digitVal y4
    let m := digitVal m1 * 10 + digitVal m2
    let d := digitVal d1 * 10 + digitVal d2
    let h := digitVal h1 * 10 + digitVal h2
    let mi := digitVal i1 * 10 + digitVal i2
    let s := digitVal s1 * 10 + digitVal s2
    let f := digitVal f1 * 100 + digitVal f2 * 10 + digitVal f3
    some ((daysToYear (y - 1970) + ((monthLengths (isLeapYear y)).take (m - 1)).sum + (d - 1))
        * 86400000 + h * 3600000 + mi * 60000 + s * 1000 + f)
  | _ => none

/-- Parse an ISO-8601 timestamp string back to an instant. -/
def parseISODate (str : String) : Option Nat :=
  parseISOChars str.toList

/-! ## The persisted JSON document -/

/-- A post as it appears in the persisted JSON document: the timestamp is an
ISO-8601 string, all other fields serialize as themselves (absent optional
fields stay absent). -/
structure StoredPost where
  id : String
  description : String
  timestamp : String
  rating : Option Int
  platform : Option String
  originalPostId : Option String
  platformUniqueId : Option String
  contentHash : Option String
  screenshotPath : String
  category : Option String
  deriving Repr, DecidableEq

/-- The persisted document; `posts`, `currentIndex` and `version` may each be
absent in a hand-written or legacy file, hence the `Option`s. -/
structure StoredDoc where
  posts : Option (List StoredPost)
  currentIndex : Option Int
  version : Option String
  deriving Repr, DecidableEq

/-- Serialize one post (`JSON.stringify` with `Date.toJSON`). -/
def storePost (p : Post) : StoredPost :=
  ⟨p.id, p.description, toISOString p.timestamp, p.rating, p.platform, p.originalPostId,
    p.platformUniqueId, p.contentHash, p.screenshotPath, p.category⟩

/-- `PostDB.saveDB`: the document written to the backing file. -/
def saveDB (data : PostDBData) : StoredDoc :=
  ⟨some (data.posts.map storePost), some data.currentIndex, some data.version⟩

/-- Revive one stored post (`new Date(post.timestamp)` on the string field). -/
def loadPost (p : StoredPost) : Post :=
  ⟨p.id, p.description, (parseISODate p.timestamp).getD 0, p.rating, p.platform, p.originalPostId,
    p.platformUniqueId, p.contentHash, p.screenshotPath, p.category⟩

/-- What `loadDB` finds at the backing path: no file, a file whose contents
make `JSON.parse` throw, or a parsed document. -/
inductive FileState where
  | missing
  | unparsable
  | parsed (doc : StoredDoc)
  deriving Repr, DecidableEq

/-- `PostDB.loadDB` (as run by the constructor): a missing file or a parse
failure yields the empty state and immediately rewrites the backing file
(second component `true`); a parsed document is loaded with `|| []`, `|| 0`
and `|| '1.0.0'` defaults and nothing is written back.  The error branch is
caught internally, so the embedding is a total function. -/
def loadDB (file : FileState) : PostDBData × Bool :=
  match file with
  | .missing => (emptyData, true)
  | .unparsable => (emptyData, true)
  | .parsed doc =>
    (⟨(doc.posts.getD []).map loadPost, jsOrInt doc.currentIndex 0, jsOrStr doc.version "1.0.0"⟩,
      false)

/-- `PostDB.calculateContentHash`: the first 16 hex characters of the SHA-256
of the image file, or `""` when the file cannot be read.  The hash primitive
itself is external (`crypto`), so it is a parameter; the file contents are
`none` when `fs.readFileSync` throws. -/
def calculateContentHash (hashHex : List Nat → String) (fileContents : Option (List Nat)) :
    String :=
  match fileContents with
  | some buf => (hashHex buf).take 16
  | none => ""

/-! ## The feed-capture loops

The browser page is modelled as an oracle: `feed round` lists the elements the
item selector matches in capture round `round`, each with the outcomes of the
per-element DOM interactions.  An element with `ok = false` stands for one
whose processing threw at some step (`getUniqueId`, the viewport probe, the
screenshot, the file write, …); the `catch` block logs and skips it. -/

/-- One rendered feed element as seen by a capture round. -/
structure FeedElement where
  uniqueId : String
  inViewport : Bool
  ok : Bool
  deriving Repr, DecidableEq

/-- One captured item: the written screenshot path and the platform unique id
(`{ filePath, platformUniqueId }` in `capturePostScreenshots`). -/
structure CapturedShot where
  filePath : String
  platformUniqueId : String
  deriving Repr, DecidableEq

/-- The inner `for (const postElement of postElements)` loop of
`capturePostScreenshots`: walk the round's elements, skipping duplicates,
out-of-viewport and failing elements, capturing the rest until the target is
reached.  Returns the updated screenshot count, captured-id set and results
accumulator. -/
def processRound (platform directory : String) (numPosts : Nat) :
    List FeedElement → Nat → List String → List CapturedShot →
    Nat × List String × List CapturedShot
  | [], count, captured, acc => (count, captured, acc)
  | e :: es, count, captured, acc =>
    if numPosts ≤ count then (count, captured, acc)
    else if !e.ok then processRound platform directory numPosts es count captured acc
    else if captured.contains e.uniqueId then
      processRound platform directory numPosts es count captured acc
    else if !e.inViewport then processRound platform directory numPosts es count captured acc
    else
      let filePath :=
        directory ++ "/" ++ platform ++ "_" ++ toString (count + 1) ++ "_" ++ e.uniqueId ++ ".png"
      processRound platform directory numPosts es (count + 1) (captured ++ [e.uniqueId])
        (acc ++ [⟨filePath, e.uniqueId⟩])

/-- The `while (screenshotCount < numPosts)` loop of
`capturePostScreenshots` (fuel-indexed; the loop itself has no fuel, and
`captureLoop_fuel_irrelevant` below shows any fuel past the loop's intrinsic
bound gives the same answer).  A round with zero progress increments the stall
counter; `maxRoundsWithoutProgress = 3` stalled rounds end the capture.  The
scroll between rounds has no observable state, so it does not appear. -/
def captureLoopAux (platform directory : String) (numPosts : Nat)
    (feed : Nat → List FeedElement) :
    (fuel round count rwp : Nat) → List String → List CapturedShot → List CapturedShot
  | 0, _, _, _, _, acc => acc
  | fuel + 1, round, count, rwp, captured, acc =>
    if numPosts ≤ count then acc
    else
      let elems := feed round
      if elems.isEmpty then acc
      else
        let r := processRound platform directory numPosts elems count captured acc
        let processed := r.1 - count
        if processed = 0 then
          if 3 ≤ rwp + 1 then acc
          else captureLoopAux platform directory numPosts feed fuel (round + 1) count (rwp + 1)
            r.2.1 r.2.2
        else
          captureLoopAux platform directory numPosts feed fuel (round + 1) r.1 0 r.2.1 r.2.2

/-- `capturePostScreenshots` (from `src/social-post-gatherer.ts`), run after a
successful selector wait: the capture loop from an empty captured set.  The
fuel `4 * numPosts + 4` dominates the loop's intrinsic bound. -/
def capturePostScreenshots (platform directory : String) (numPosts : Nat)
    (feed : Nat → List FeedElement) : List CapturedShot :=
  captureLoopAux platform directory numPosts feed (4 * numPosts + 4) 0 0 0 [] []

/-- What the scroll-for-more phase of `scrollAndGatherPosts` observes in one
scroll attempt: the element count after the three incremental scrolls and
re-query, and the count after the subsequent scroll-to-bottom re-check. -/
structure ScrollObservation where
  afterIncremental : Nat
  afterBottom : Nat
  deriving Repr, DecidableEq

/-- The `while (!newContentLoaded && scrollAttempts < maxScrollAttempts)` loop
of `scrollAndGatherPosts` (lines 397–474): each attempt performs three small
incremental scrolls, re-queries and compares against `initialPostCount`; on no
growth it scrolls to the very bottom and re-checks once; it stops as soon as
growth is seen or after `maxScrollAttempts = 5` attempts.  Returns
`newContentLoaded`. -/
def scrollForMoreAux (obs : Nat → ScrollObservation) (initialPostCount : Nat) :
    (attempt remaining : Nat) → Bool
  | _, 0 => false
  | attempt, remaining + 1 =>
    let o := obs attempt
    if initialPostCount < o.afterIncremental then true
    else if initialPostCount < o.afterBottom then true
    else scrollForMoreAux obs initialPostCount (attempt + 1) remaining

/-- The scroll-for-more phase: up to `maxScrollAttempts = 5` attempts. -/
def scrollForMore (obs : Nat → ScrollObservation) (initialPostCount : Nat) : Bool :=
  scrollForMoreAux obs initialPostCount 0 5

/-- The scroll-for-more phase as the claim words it: one batch of incremental
scrolls and re-check; if no growth, one full scroll-to-bottom attempt and one
more re-check; if still no growth, give up.  (Stated for comparison with
`scrollForMore`, which is the source's behavior.) -/
def scrollForMoreClaimed (obs : Nat → ScrollObservation) (initialPostCount : Nat) : Bool :=
  let o := obs 0
  if initialPostCount < o.afterIncremental then true
  else if initialPostCount < o.afterBottom then true
  else false

/-- The `while (screenshotCount < numPostsToLookAt)` loop of
`scrollAndGatherPosts` (from the screenshot-gathering module): like
`captureLoopAux` but with the scroll-for-more phase between rounds — when the
target is not yet reached, the loop continues only if `scrollForMore` observed
element-count growth (`scrollObs round` supplies that round's scroll
observations). -/
def gatherLoopAux (platform directory : String) (numPosts : Nat)
    (feed : Nat → List FeedElement) (scrollObs : Nat → Nat → ScrollObservation) :
    (fuel round count rwp : Nat) → List String → List CapturedShot → List CapturedShot
  | 0, _, _, _, _, acc => acc
  | fuel + 1, round, count, rwp, captured, acc =>
    if numPosts ≤ count then acc
    else
      let elems := feed round
      if elems.isEmpty then acc
      else
        let r := processRound platform directory numPosts elems count captured acc
        let processed := r.1 - count
        if processed = 0 && 3 ≤ rwp + 1 then acc
        else
          let rwp' := if processed = 0 then rwp + 1 else 0
          if r.1 < numPosts then
            if scrollForMore (scrollObs round) elems.length then
              gatherLoopAux platform directory numPosts feed scrollObs fuel (round + 1) r.1 rwp'
                r.2.1 r.2.2
            else r.2.2
          else
            gatherLoopAux platform directory numPosts feed scrollObs fuel (round + 1) r.1 rwp'
              r.2.1 r.2.2

/-- The dedup rule as the specification words it (§4.3 `addPost`): (1) if both
the candidate and the stored post have a non-empty `platformUniqueId`, equality
on that field is decisive; else (2) if both have a non-empty `contentHash`,
equality on that field is decisive; else (3) exact equality of
`(description, screenshotPath)`.  Transcribed from the spec sentence, to be
compared with `postMatches`, which is translated from the source. -/
def specDedupMatch (description screenshotPath : String)
    (platformUniqueId contentHash : Option String) (post : Post) : Bool :=
  if strTruthy platformUniqueId && strTruthy post.platformUniqueId then
    decide (post.platformUniqueId = platformUniqueId)
  else if strTruthy contentHash && strTruthy post.contentHash then
    decide (post.contentHash = contentHash)
  else
    decide (post.description = description ∧ post.screenshotPath = screenshotPath)

/-- A feed that renders the same six distinct items in every round, all inside
the viewport and all capturable. -/
def sixItemFeed : Nat → List FeedElement :=
  fun _ => ["a", "b", "c", "d", "e", "f"].map fun id => ⟨id, true, true⟩

/-- A feed whose single rendered item never enters the lenient viewport
window, so every capture round processes zero new items. -/
def stalledFeed : Nat → List FeedElement :=
  fun _ => [⟨"x", false, true⟩]

/-- Scroll observations over an initial count of 10: the first attempt sees no
element-count growth (neither after the incremental scrolls nor after the
scroll to the bottom), the second attempt does. -/
def growthOnSecondAttempt : Nat → ScrollObservation :=
  fun n => if n = 0 then ⟨10, 10⟩ else ⟨11, 11⟩

/-- A feed rendering one capturable item per round. -/
def oneItemFeed : Nat → List FeedElement := fun _ => [⟨"a", true, true⟩]

/-- Scroll observations that never show element-count growth past 1. -/
def noGrowthObs : Nat → Nat → ScrollObservation := fun _ _ => ⟨1, 1⟩

/-! ## Helper lemmas -/

theorem jsOrInt_some_zero (x : Int) : jsOrInt (some x) 0 = x := by
  simp only [jsOrInt]
  split <;> simp_all

theorem uniquePid_congr_pids {l₁ l₂ : List Post}
    (hmap : l₁.map Post.platformUniqueId = l₂.map Post.platformUniqueId)
    (h : UniquePid l₁) : UniquePid l₂ := by
  unfold UniquePid at *
  have h1 : List.Pairwise
      (fun a b : Option String => ∀ s : String, s ≠ "" → a = some s → b ≠ some s)
      (l₁.map Post.platformUniqueId) := List.pairwise_map.mpr h
  rw [hmap] at h1
  exact List.pairwise_map.mp h1

theorem map_pid_setRatingFirst (postId : String) (r : Int) (l : List Post) :
    (setRatingFirst postId r l).map Post.platformUniqueId = l.map Post.platformUniqueId := by
  induction l with
  | nil => rfl
  | cons p ps ih =>
    simp only [setRatingFirst]
    split <;> simp [ih]

theorem strTruthy_some_ne {s : String} (h : s ≠ "") : strTruthy (some s) = true := by
  have hE : s.isEmpty = false := by
    rcases hE : s.isEmpty with _ | _
    · rfl
    · exact absurd ((String.isEmpty_iff s).mp hE) h
  simp [strTruthy, hE]

/-- The dedup check preserves the unique-id invariant: a candidate that passes
`postExists = false` cannot share a non-empty `platformUniqueId` with any
stored post. -/
theorem uniquePid_applyOp (data : PostDBData) (op : Op) (h : UniquePid data.posts) :
    UniquePid (applyOp data op).posts := by
  cases op with
  | addPost d sp r p o pid ch c now =>
    simp only [applyOp, addPost]
    split
    · exact h
    · rename_i hex
      simp only [UniquePid] at h ⊢
      refine List.pairwise_append.mpr ⟨h, List.pairwise_singleton _ _, ?_⟩
      intro a ha b hb
      simp only [List.mem_singleton] at hb
      subst hb
      intro s hs has hbs
      have hpid : pid = some s := hbs
      have hexf : data.posts.any (postMatches d sp pid ch) = false := by
        simpa [postExists] using hex
      exact List.any_eq_false.mp hexf a ha
        (by simp [postMatches, hpid, has, strTruthy_some_ne hs])
  | updateRating postId r =>
    simp only [applyOp, updateRating]
    split
    · exact uniquePid_congr_pids (map_pid_setRatingFirst postId r data.posts).symm h
    · exact h
  | deletePost postId =>
    simp only [applyOp, deletePost]
    cases hidx : data.posts.findIdx? fun p => p.id == postId with
    | none => exact h
    | some i => exact List.Pairwise.sublist (List.eraseIdx_sublist _ i) h
  | goToIndex i =>
    simp only [applyOp, goToIndex]
    split <;> exact h
  | moveForward s =>
    simp only [applyOp, moveForward]
    split <;> exact h
  | moveBackward s =>
    simp only [applyOp, moveBackward]
    split <;> exact h
  | clearAll =>
    simp only [applyOp, clearAll]
    exact List.Pairwise.nil

theorem uniquePid_foldl : ∀ (ops : List Op) (data : PostDBData), UniquePid data.posts →
    UniquePid (ops.foldl applyOp data).posts := by
  intro ops
  induction ops with
  | nil => intro data h; exact h
  | cons op ops ih =>
    intro data h
    exact ih _ (uniquePid_applyOp data op h)

/-! ## Claims -/

/-- C1: for every sequence of public store operations starting from the empty
store, at no point do two stored posts share the same non-empty
`platformUniqueId` (every prefix of a sequence is itself a sequence, so the
statement over all `ops` covers every intermediate state). -/
theorem addPost_preserves_unique_platform_ids (ops : List Op) :
    UniquePid (execOps ops).posts :=
  uniquePid_foldl ops emptyData List.Pairwise.nil

/-- C2: on the empty store — whose `currentIndex` is 0, in bounds — the claim
says `moveForward` must leave `currentIndex` at 0 for every `steps ≥ 1`; the
code instead computes `Math.min(0 + 1, 0 - 1) = -1`, reports a successful
move, persists, and leaves `currentIndex = -1`. -/
theorem moveForward_on_empty_store_sets_minus_one :
    moveForward emptyData 1 = (true, ⟨[], -1, "1.0.0"⟩, true) := by decide

/-- C10: constructing a `PostDB` over a missing backing file, or over one
whose contents fail to parse as JSON, yields the empty state (no posts,
`currentIndex 0`, version `"1.0.0"`) and immediately rewrites the backing file
(the `true` component); `loadDB` is a total function into states, so the load
failure is not surfaced to the caller. -/
theorem loadDB_missing_or_corrupt_resets :
    loadDB .missing = (⟨[], 0, "1.0.0"⟩, true) ∧
    loadDB .unparsable = (⟨[], 0, "1.0.0"⟩, true) :=
  ⟨rfl, rfl⟩

/-- C9: the dedup check treats an empty-string `platformUniqueId` or
`contentHash` exactly like an absent one, `calculateContentHash` returns the
empty string when the image file cannot be read, and two posts both carrying
empty-string `platformUniqueId` and `contentHash` can end up stored
together. -/
theorem empty_string_ids_treated_as_absent :
    (∀ (data : PostDBData) (desc sp : String) (ch : Option String),
      postExists data desc sp (some "") ch = postExists data desc sp none ch)
    ∧ (∀ (data : PostDBData) (desc sp : String) (pid : Option String),
      postExists data desc sp pid (some "") = postExists data desc sp pid none)
    ∧ (∀ hashHex : List Nat → String, calculateContentHash hashHex none = "")
    ∧ ((execOps
        [.addPost "first post" "a.png" none none none (some "") (some "") none 5,
         .addPost "second post" "b.png" none none none (some "") (some "") none 6]).posts.map
          (fun p => (p.platformUniqueId, p.contentHash))
        = [(some "", some ""), (some "", some "")]) := by
  refine ⟨fun data desc sp ch => rfl, fun data desc sp pid => ?_, fun hashHex => rfl, by decide⟩
  have hfun : postMatches desc sp pid (some "") = postMatches desc sp pid none := by
    funext p
    have h2 : strTruthy (some "") = false := rfl
    have h3 : strTruthy (none : Option String) = false := rfl
    simp [postMatches, h2, h3]
  rw [postExists, postExists, hfun]

theorem find?_setRatingFirst (postId : String) (r : Int) (l : List Post) :
    (setRatingFirst postId r l).find? (fun p => p.id == postId)
      = (l.find? fun p => p.id == postId).map fun p => { p with rating := some r } := by
  induction l with
  | nil => rfl
  | cons p ps ih =>
    by_cases hp : p.id = postId
    · simp [setRatingFirst, List.find?_cons, hp]
    · simp [setRatingFirst, List.find?_cons, hp, ih]

/-- C8: `updateRating` with an unknown id, `deletePost` with an unknown id and
`goToIndex` out of `[0, total-1]` each return `false` (totally — nothing is
thrown) with the state untouched and nothing persisted; for an existing id,
`updateRating` accepts every number `r` with no range validation and sets the
post's rating to it. -/
theorem validation_failures_are_boolean_noops :
    (∀ (data : PostDBData) (postId : String) (r : Int),
      (∀ p ∈ data.posts, p.id ≠ postId) → updateRating data postId r = (false, data, false))
    ∧ (∀ (data : PostDBData) (postId : String),
      (∀ p ∈ data.posts, p.id ≠ postId) → deletePost data postId = (false, data, false))
    ∧ (∀ (data : PostDBData) (i : Int),
      (i < 0 ∨ (data.posts.length : Int) ≤ i) → goToIndex data i = (false, data, false))
    ∧ (∀ (data : PostDBData) (postId : String) (r : Int),
      (∃ p ∈ data.posts, p.id = postId) →
        (updateRating data postId r).1 = true ∧
        ((updateRating data postId r).2.1.posts.find? fun p => p.id == postId)
          = ((data.posts.find? fun p => p.id == postId).map fun p => { p with rating := some r })) := by
  refine ⟨?_, ?_, ?_, ?_⟩
  · intro data postId r h
    have hany : (data.posts.any fun p => p.id == postId) = false :=
      List.any_eq_false.mpr fun p hp => by simp [h p hp]
    simp [updateRating, hany]
  · intro data postId h
    have hidx : (data.posts.findIdx? fun p => p.id == postId) = none :=
      List.findIdx?_eq_none_iff.mpr fun p hp => by simp [h p hp]
    simp [deletePost, hidx]
  · intro data i h
    have hcond : (decide (i < 0) || decide ((data.posts.length : Int) ≤ i)) = true := by
      rcases h with h | h <;> simp [h]
    simp [goToIndex, hcond]
  · intro data postId r h
    obtain ⟨p, hp, hid⟩ := h
    have hany : (data.posts.any fun p => p.id == postId) = true :=
      List.any_eq_true.mpr ⟨p, hp, by simp [hid]⟩
    constructor
    · simp [updateRating, hany]
    · simp [updateRating, hany, find?_setRatingFirst]

/-- C8 witness: a failed `goToIndex`, a failed `updateRating` and a successful
rating update on a concrete store. -/
theorem validation_failures_are_boolean_noops_witness :
    goToIndex emptyData 5 = (false, emptyData, false)
    ∧ updateRating emptyData "nope" 3 = (false, emptyData, false) := by
  constructor
  · exact validation_failures_are_boolean_noops.2.2.1 emptyData 5 (by decide)
  · exact validation_failures_are_boolean_noops.1 emptyData "nope" 3 (by simp [emptyData])

theorem specDedupMatch_eq_postMatches (desc sp : String) (pid ch : Option String) (p : Post) :
    specDedupMatch desc sp pid ch p = postMatches desc sp pid ch p := by
  unfold specDedupMatch postMatches
  repeat' split
  · cases h : p.platformUniqueId == pid <;> simp_all
  · cases h : p.contentHash == ch <;> simp_all
  · cases h1 : p.description == desc <;> cases h2 : p.screenshotPath == sp <;> simp_all

/-- C3: `addPost` runs the three-tier dedup check (as §4.3 words it, transcribed
in `specDedupMatch`) against every stored post; when some stored post matches it
returns the duplicate signal `none` with the state completely unchanged and
nothing persisted, and when no stored post matches it proceeds to return the
generated id. -/
theorem addPost_duplicate_is_unmutated_noop :
    ∀ (data : PostDBData) (desc sp : String) (r : Option Int)
      (plat oid pid ch cat : Option String) (now : Nat),
      ((∃ p ∈ data.posts, specDedupMatch desc sp pid ch p = true) →
        addPost data desc sp r plat oid pid ch cat now = (none, data, false))
      ∧ ((∀ p ∈ data.posts, specDedupMatch desc sp pid ch p = false) →
        (addPost data desc sp r plat oid pid ch cat now).1
          = some (generatePostId desc sp plat pid now)) := by
  intro data desc sp r plat oid pid ch cat now
  constructor
  · intro h
    obtain ⟨p, hp, hmatch⟩ := h
    have hex : postExists data desc sp pid ch = true :=
      List.any_eq_true.mpr ⟨p, hp, by rw [← specDedupMatch_eq_postMatches]; exact hmatch⟩
    simp [addPost, hex]
  · intro h
    have hex : postExists data desc sp pid ch = false :=
      List.any_eq_false.mpr fun p hp => by
        rw [← specDedupMatch_eq_postMatches]
        simp [h p hp]
    simp [addPost, hex]

/-- C3 witness: a second `addPost` carrying the same `platformUniqueId`
`"tweet123"` but a different description is reported as a duplicate and leaves
the store untouched. -/
theorem addPost_duplicate_is_unmutated_noop_witness :
    (∃ p ∈ (execOps [.addPost "first" "a.png" none (some "twitter") none
        (some "tweet123") none none 3]).posts,
      specDedupMatch "second" "b.png" (some "tweet123") none p = true)
    ∧ addPost (execOps [.addPost "first" "a.png" none (some "twitter") none
        (some "tweet123") none none 3]) "second" "b.png" none (some "twitter") none
        (some "tweet123") none none 9
      = (none, execOps [.addPost "first" "a.png" none (some "twitter") none
          (some "tweet123") none none 3], false) :=
  ⟨by decide,
    (addPost_duplicate_is_unmutated_noop _ "second" "b.png" none (some "twitter") none
      (some "tweet123") none none 9).1 (by decide)⟩

/-- C4: on a non-empty store and `pageSize ≥ 1`, `getPosts` returns exactly the
slice `[start', endIdx)` of the stored sequence given by the claimed window
formulas, sorted by timestamp descending; `hasMore = (endIdx < total)` and is
`false` exactly when the window reaches the end of the sequence;
`hasPrevious = (start' > 0)`; and the call never mutates the state (the
returned state is the input state and nothing is persisted). -/
theorem getPosts_windowed_pagination (data : PostDBData) (pageSize offsetFromCurrent : Int)
    (htotal : 0 < data.posts.length) (hpage : 1 ≤ pageSize) :
    let total : Int := (data.posts.length : Int)
    let targetIndex := max 0 (min (data.currentIndex + offsetFromCurrent) (total - 1))
    let half := Int.fdiv pageSize 2
    let start := max 0 (targetIndex - half)
    let adjStart := max 0 (min start (total - pageSize))
    let endIdx := min total (adjStart + pageSize)
    ((getPosts data pageSize offsetFromCurrent).1.posts.Perm
        (sliceList data.posts adjStart endIdx))
    ∧ List.Sorted (fun a b : Post => b.timestamp ≤ a.timestamp)
        (getPosts data pageSize offsetFromCurrent).1.posts
    ∧ (getPosts data pageSize offsetFromCurrent).1.currentIndex = data.currentIndex
    ∧ (getPosts data pageSize offsetFromCurrent).1.totalPosts = data.posts.length
    ∧ (getPosts data pageSize offsetFromCurrent).1.hasMore = decide (endIdx < total)
    ∧ ((getPosts data pageSize offsetFromCurrent).1.hasMore = false ↔ endIdx = total)
    ∧ (getPosts data pageSize offsetFromCurrent).1.hasPrevious = decide (0 < adjStart)
    ∧ (getPosts data pageSize offsetFromCurrent).2.1 = data
    ∧ (getPosts data pageSize offsetFromCurrent).2.2 = false := by
  intro total targetIndex half start adjStart endIdx
  have hne : ¬ data.posts.length = 0 := by omega
  have hg : getPosts data pageSize offsetFromCurrent
      = (⟨(sliceList data.posts adjStart endIdx).mergeSort tsDesc, data.currentIndex,
          data.posts.length, decide (endIdx < total), decide (0 < adjStart)⟩, data, false) := by
    simp only [getPosts]
    rw [if_neg hne]
  rw [hg]
  have hend : endIdx ≤ total := min_le_left _ _
  refine ⟨List.mergeSort_perm _ _, ?_, rfl, rfl, rfl, ?_, rfl, rfl, rfl⟩
  · have hs := @List.sorted_mergeSort Post tsDesc
      (fun a b c hab hbc => by
        simp only [tsDesc, decide_eq_true_eq] at hab hbc ⊢; omega)
      (fun a b => by
        simp only [tsDesc, Bool.or_eq_true, decide_eq_true_eq]; omega)
      (sliceList data.posts adjStart endIdx)
    exact hs.imp fun h => by simpa [tsDesc] using h
  · simp only [decide_eq_false_iff_not, not_lt]
    omega

/-- C4 witness: a three-post store with `currentIndex = 1`, `getPosts 2 0`. -/
theorem getPosts_windowed_pagination_witness :
    0 < (PostDBData.mk
      [⟨"p1", "d1", 5, none, none, none, none, none, "s1", none⟩,
       ⟨"p2", "d2", 9, none, none, none, none, none, "s2", none⟩,
       ⟨"p3", "d3", 7, none, none, none, none, none, "s3", none⟩] 1 "1.0.0").posts.length
    ∧ (1 : Int) ≤ 2
    ∧ (let data : PostDBData := PostDBData.mk
        [⟨"p1", "d1", 5, none, none, none, none, none, "s1", none⟩,
         ⟨"p2", "d2", 9, none, none, none, none, none, "s2", none⟩,
         ⟨"p3", "d3", 7, none, none, none, none, none, "s3", none⟩] 1 "1.0.0"
       let total : Int := (data.posts.length : Int)
       let targetIndex := max 0 (min (data.currentIndex + 0) (total - 1))
       let half := Int.fdiv 2 2
       let start := max 0 (targetIndex - half)
       let adjStart := max 0 (min start (total - 2))
       let endIdx := min total (adjStart + 2)
       ((getPosts data 2 0).1.posts.Perm (sliceList data.posts adjStart endIdx))
       ∧ List.Sorted (fun a b : Post => b.timestamp ≤ a.timestamp) (getPosts data 2 0).1.posts
       ∧ (getPosts data 2 0).1.currentIndex = data.currentIndex
       ∧ (getPosts data 2 0).1.totalPosts = data.posts.length
       ∧ (getPosts data 2 0).1.hasMore = decide (endIdx < total)
       ∧ ((getPosts data 2 0).1.hasMore = false ↔ endIdx = total)
       ∧ (getPosts data 2 0).1.hasPrevious = decide (0 < adjStart)
       ∧ (getPosts data 2 0).2.1 = data
       ∧ (getPosts data 2 0).2.2 = false) :=
  ⟨by decide, by decide,
    getPosts_windowed_pagination _ 2 0 (by decide) (by decide)⟩

theorem processRound_count_mono (platform directory : String) (numPosts : Nat) :
    ∀ (elems : List FeedElement) (count : Nat) (captured : List String) (acc : List CapturedShot),
      count ≤ (processRound platform directory numPosts elems count captured acc).1 := by
  intro elems
  induction elems with
  | nil => intro count captured acc; exact Nat.le_refl _
  | cons e es ih =>
    intro count captured acc
    simp only [processRound]
    repeat' split
    all_goals
      first
      | exact Nat.le_refl _
      | exact ih _ _ _
      | exact Nat.le_trans (Nat.le_succ _) (ih _ _ _)

theorem processRound_stationary (platform directory : String) (numPosts : Nat) :
    ∀ (elems : List FeedElement) (count : Nat) (captured : List String) (acc : List CapturedShot),
      (processRound platform directory numPosts elems count captured acc).1 = count →
      processRound platform directory numPosts elems count captured acc
        = (count, captured, acc) := by
  intro elems
  induction elems with
  | nil => intro count captured acc _; rfl
  | cons e es ih =>
    intro count captured acc
    simp only [processRound]
    repeat' split
    all_goals intro h
    · rfl
    · exact ih _ _ _ h
    · exact ih _ _ _ h
    · exact ih _ _ _ h
    · exfalso
      have := processRound_count_mono platform directory numPosts es (count + 1)
        (captured ++ [e.uniqueId])
        (acc ++ [⟨directory ++ "/" ++ platform ++ "_" ++ toString (count + 1) ++ "_"
          ++ e.uniqueId ++ ".png", e.uniqueId⟩])
      omega

/-- C5: (general part) whenever the number of new items processed is zero for
three consecutive rounds, the `capturePostScreenshots` loop stops and returns
the items captured so far — the embedding is a total function, so no error is
thrown; (scenario part) a run with target 10 over a feed that only ever
renders the same six distinct items terminates with exactly those six captured
items. -/
theorem capture_loop_stall_detection :
    (∀ (platform directory : String) (numPosts : Nat) (feed : Nat → List FeedElement)
        (fuel round count : Nat) (captured : List String) (acc : List CapturedShot),
      3 ≤ fuel →
      (∀ k, k < 3 →
        (processRound platform directory numPosts (feed (round + k)) count captured acc).1
          = count) →
      captureLoopAux platform directory numPosts feed fuel round count 0 captured acc = acc)
    ∧ capturePostScreenshots "twitter" "shots" 10 sixItemFeed
      = [⟨"shots/twitter_1_a.png", "a"⟩, ⟨"shots/twitter_2_b.png", "b"⟩,
         ⟨"shots/twitter_3_c.png", "c"⟩, ⟨"shots/twitter_4_d.png", "d"⟩,
         ⟨"shots/twitter_5_e.png", "e"⟩, ⟨"shots/twitter_6_f.png", "f"⟩] := by
  constructor
  · intro platform directory numPosts feed fuel round count captured acc hfuel hzero
    obtain ⟨f, rfl⟩ : ∃ f, fuel = f + 1 + 1 + 1 := ⟨fuel - 3, by omega⟩
    have h0 := processRound_stationary platform directory numPosts (feed round) count captured acc
      (by simpa using hzero 0 (by omega))
    have h1 := processRound_stationary platform directory numPosts (feed (round + 1)) count
      captured acc (hzero 1 (by omega))
    have h2 := processRound_stationary platform directory numPosts (feed (round + 1 + 1)) count
      captured acc (by
        have := hzero 2 (by omega)
        rwa [show round + 2 = round + 1 + 1 by omega] at this)
    simp [captureLoopAux, h0, h1, h2]
  · decide

/-- C5 witness: a permanently out-of-viewport feed stalls three rounds and the
loop returns the (empty) list captured so far. -/
theorem capture_loop_stall_detection_witness :
    (3 : Nat) ≤ 5
    ∧ (∀ k, k < 3 → (processRound "x" "d" 7 (stalledFeed (0 + k)) 0 [] []).1 = 0)
    ∧ captureLoopAux "x" "d" 7 stalledFeed 5 0 0 0 [] [] = [] :=
  ⟨by decide, by decide,
    capture_loop_stall_detection.1 "x" "d" 7 stalledFeed 5 0 0 [] [] (by decide) (by decide)⟩

theorem scrollForMoreAux_growth_iff (obs : Nat → ScrollObservation) (init : Nat) :
    ∀ (remaining attempt : Nat),
      (scrollForMoreAux obs init attempt remaining = true
        ↔ ∃ k, k < remaining ∧ (init < (obs (attempt + k)).afterIncremental
            ∨ init < (obs (attempt + k)).afterBottom)) := by
  intro remaining
  induction remaining with
  | zero => intro attempt; simp [scrollForMoreAux]
  | succ r ih =>
    intro attempt
    simp only [scrollForMoreAux]
    split
    · rename_i hInc
      constructor
      · intro _
        exact ⟨0, by omega, Or.inl (by simpa using hInc)⟩
      · intro _; rfl
    · split
      · rename_i hBot
        constructor
        · intro _
          exact ⟨0, by omega, Or.inr (by simpa using hBot)⟩
        · intro _; rfl
      · rename_i hInc hBot
        rw [ih (attempt + 1)]
        constructor
        · rintro ⟨k, hk, hp⟩
          exact ⟨k + 1, by omega, by rwa [show attempt + (k + 1) = attempt + 1 + k by omega]⟩
        · rintro ⟨k, hk, hp⟩
          match k with
          | 0 =>
            exfalso
            rw [Nat.add_zero] at hp
            rcases hp with hp | hp
            · exact hInc hp
            · exact hBot hp
          | j + 1 =>
            exact ⟨j, by omega, by rwa [show attempt + (j + 1) = attempt + 1 + j by omega] at hp⟩

/-- C7 counterexample: over an initial count of 10, the first scroll attempt
(incremental scrolls, re-check, bottom scroll, re-check) observes no growth
but the second does; the claim says the loop aborts after the first failed
bottom-scroll re-check, yet the code reports new content loaded and goes on
capturing. -/
theorem scroll_phase_aborts_after_one_attempt_counterexample :
    scrollForMore growthOnSecondAttempt 10 = true
    ∧ scrollForMoreClaimed growthOnSecondAttempt 10 = false := by decide

/-- C7 (amended): when the target is not reached at the end of a capture
round, the loop performs several small incremental scrolls with settle delays,
re-queries and compares the element count with the count before scrolling, and
on no growth performs one full scroll-to-bottom attempt and re-checks once
more — but it retries this whole sequence up to `maxScrollAttempts = 5` times:
it reports new content (beginning a new capture round) iff one of up to five
attempts observes growth, and only when no attempt does, the loop aborts
returning the items captured so far. -/
theorem scroll_phase_retries_up_to_five_attempts :
    (∀ (obs : Nat → ScrollObservation) (initialPostCount : Nat),
      scrollForMore obs initialPostCount = true
        ↔ ∃ k, k < 5 ∧ (initialPostCount < (obs k).afterIncremental
            ∨ initialPostCount < (obs k).afterBottom))
    ∧ (∀ (platform directory : String) (numPosts : Nat) (feed : Nat → List FeedElement)
        (scrollObs : Nat → Nat → ScrollObservation) (fuel round count rwp : Nat)
        (captured : List String) (acc : List CapturedShot)
        (c' : Nat) (cap' : List String) (acc' : List CapturedShot),
      processRound platform directory numPosts (feed round) count captured acc
        = (c', cap', acc') →
      ¬ numPosts ≤ count →
      (feed round).isEmpty = false →
      ¬(c' - count = 0 ∧ 3 ≤ rwp + 1) →
      c' < numPosts →
      (scrollForMore (scrollObs round) (feed round).length = false →
        gatherLoopAux platform directory numPosts feed scrollObs (fuel + 1) round count rwp
          captured acc = acc')
      ∧ (scrollForMore (scrollObs round) (feed round).length = true →
        gatherLoopAux platform directory numPosts feed scrollObs (fuel + 1) round count rwp
          captured acc
          = gatherLoopAux platform directory numPosts feed scrollObs fuel (round + 1) c'
              (if c' - count = 0 then rwp + 1 else 0) cap' acc')) := by
  constructor
  · intro obs initialPostCount
    rw [scrollForMore, scrollForMoreAux_growth_iff obs initialPostCount 5 0]
    simp
  · intro platform directory numPosts feed scrollObs fuel round count rwp captured acc
      c' cap' acc' hr h2 h3 h4 h5
    constructor <;> intro hscroll <;>
      simp [gatherLoopAux, hr, h2, h3, h5, hscroll] <;>
      exact fun hA hB => absurd ⟨hA, by omega⟩ h4

/-- C7 witness: one capture round that made progress, followed by a scroll
phase in which none of the five attempts observes growth: the loop returns the
single captured item. -/
theorem scroll_phase_retries_up_to_five_attempts_witness :
    processRound "x" "d" 5 (oneItemFeed 0) 0 [] []
      = (1, ["a"], [⟨"d/x_1_a.png", "a"⟩])
    ∧ ¬ (5 : Nat) ≤ 0
    ∧ (oneItemFeed 0).isEmpty = false
    ∧ ¬((1 : Nat) - 0 = 0 ∧ 3 ≤ 0 + 1)
    ∧ (1 : Nat) < 5
    ∧ scrollForMore (noGrowthObs 0) (oneItemFeed 0).length = false
    ∧ gatherLoopAux "x" "d" 5 oneItemFeed noGrowthObs 4 0 0 0 [] []
      = [⟨"d/x_1_a.png", "a"⟩] := by
  refine ⟨by decide, by decide, by decide, by decide, by decide, by decide, ?_⟩
  exact (scroll_phase_retries_up_to_five_attempts.2 "x" "d" 5 oneItemFeed noGrowthObs 3 0 0 0
    [] [] 1 ["a"] [⟨"d/x_1_a.png", "a"⟩] (by decide) (by decide) (by decide) (by decide)
    (by decide)).1 (by decide)

theorem toList_mk (cs : List Char) : (String.mk cs).toList = cs := rfl

theorem isLeapYear_iff (y : Nat) :
    isLeapYear y = true ↔ (y % 4 = 0 ∧ y % 100 ≠ 0) ∨ y % 400 = 0 := by
  simp [isLeapYear, Bool.or_eq_true, Bool.and_eq_true, beq_iff_eq, bne_iff_ne]

/-- Closed form for the day count to the start of year `1970 + k`, counting
leap days by the floor-division differences of the Gregorian rule. -/
theorem daysToYear_closed : ∀ k : Nat,
    daysToYear k + 496 + (1969 + k) / 100
      = 365 * k + (1969 + k) / 4 + (1969 + k) / 400 + 19 := by
  intro k
  induction k with
  | zero => decide
  | succ k ih =>
    have hstep : daysToYear (k + 1) = daysToYear k + daysInYear (1970 + k) := rfl
    cases hb : isLeapYear (1970 + k) with
    | false =>
      have hnp : ¬(((1970 + k) % 4 = 0 ∧ (1970 + k) % 100 ≠ 0) ∨ (1970 + k) % 400 = 0) :=
        fun hp => by rw [(isLeapYear_iff _).mpr hp] at hb; cases hb
      have hdiy : daysInYear (1970 + k) = 365 := by simp [daysInYear, hb]
      rw [hstep, hdiy]
      clear hstep hdiy hb
      generalize daysToYear k = B at ih ⊢
      omega
    | true =>
      have hp := (isLeapYear_iff _).mp hb
      have hdiy : daysInYear (1970 + k) = 366 := by simp [daysInYear, hb]
      rw [hstep, hdiy]
      clear hstep hdiy hb
      generalize daysToYear k = B at ih ⊢
      omega

theorem yearSplit_spec : ∀ (fuel j days : Nat), days / 365 + 1 ≤ fuel →
    ∃ j' doy, yearSplit fuel (1970 + j) days = (1970 + j', doy)
      ∧ j ≤ j'
      ∧ daysToYear j' + doy = daysToYear j + days
      ∧ doy < daysInYear (1970 + j') := by
  intro fuel
  induction fuel with
  | zero => intro j days h; omega
  | succ fuel ih =>
    intro j days h
    simp only [yearSplit]
    split
    · rename_i hlt
      exact ⟨j, days, rfl, Nat.le_refl _, rfl, hlt⟩
    · rename_i hge
      push_neg at hge
      have hbound : 365 ≤ daysInYear (1970 + j) ∧ daysInYear (1970 + j) ≤ 366 := by
        unfold daysInYear; split <;> omega
      have hfuel : (days - daysInYear (1970 + j)) / 365 + 1 ≤ fuel := by
        generalize daysInYear (1970 + j) = d at hge hbound
        omega
      have hrec := ih (j + 1) (days - daysInYear (1970 + j)) hfuel
      rw [show 1970 + (j + 1) = 1970 + j + 1 by omega] at hrec
      obtain ⟨j', doy, heq, hj, hsum, hlt⟩ := hrec
      refine ⟨j', doy, heq, by omega, ?_, hlt⟩
      have hstep : daysToYear (j + 1) = daysToYear j + daysInYear (1970 + j) := rfl
      generalize hA : daysToYear j' = A at hsum
      generalize hB : daysToYear (j + 1) = B at hsum hstep
      generalize hC : daysToYear j = C at hstep ⊢
      generalize hD : daysInYear (1970 + j) = d at hstep hge hbound
      omega

theorem monthSplit_spec : ∀ (ms : List Nat) (d : Nat), d < ms.sum →
    ((ms.take (monthSplit ms d).1).sum + (monthSplit ms d).2 = d)
    ∧ (monthSplit ms d).1 < ms.length
    ∧ (monthSplit ms d).2 < ms.getD (monthSplit ms d).1 0 := by
  intro ms
  induction ms with
  | nil => intro d hd; simp at hd
  | cons m rest ih =>
    intro d hd
    simp only [monthSplit]
    split
    · rename_i hlt
      exact ⟨by simp, by simp, by simpa using hlt⟩
    · rename_i hge
      push_neg at hge
      have hd' : d - m < rest.sum := by
        simp only [List.sum_cons] at hd
        omega
      obtain ⟨h1, h2, h3⟩ := ih (d - m) hd'
      refine ⟨?_, by simpa using h2, by simpa using h3⟩
      simp only [List.take_succ_cons, List.sum_cons]
      generalize (rest.take (monthSplit rest (d - m)).1).sum = S at h1 ⊢
      generalize (monthSplit rest (d - m)).2 = r2 at h1 ⊢
      omega

theorem digitVal_digitChar_mod (n : Nat) : digitVal (digitChar (n % 10)) = n % 10 := by
  have h : n % 10 < 10 := Nat.mod_lt _ (by omega)
  have hall : ∀ m, m < 10 → digitVal (digitChar m) = m := by decide
  exact hall _ h

theorem monthLengths_sum (b : Bool) : (monthLengths b).sum = if b then 366 else 365 := by
  cases b <;> decide

theorem monthLengths_getD_le (b : Bool) (i : Nat) : (monthLengths b).getD i 0 ≤ 31 := by
  have hall : ∀ x ∈ monthLengths b, x ≤ 31 := by cases b <;> decide
  by_cases hi : i < (monthLengths b).length
  · rw [List.getD_eq_getElem?_getD, List.getElem?_eq_getElem hi]
    exact hall _ (List.getElem_mem hi)
  · rw [List.getD_eq_getElem?_getD, List.getElem?_eq_none (by omega)]
    simp

/-- Parsing inverts printing for every instant strictly before year 10000
(the `YYYY` format's range); `253402300800000` is the epoch-millisecond value
of `10000-01-01T00:00:00.000Z`. -/
theorem parseISO_toISO (t : Nat) (ht : t < 253402300800000) :
    parseISODate (toISOString t) = some t := by
  obtain ⟨j', doy, heq, hj0, hsum, hdoy⟩ :=
    yearSplit_spec (t / 86400000 / 365 + 1) 0 (t / 86400000) (Nat.le_refl _)
  simp only [Nat.add_zero] at heq
  have hsum' : daysToYear j' + doy = t / 86400000 := by
    simpa [daysToYear] using hsum
  have hdays : t / 86400000 < 2932897 := by omega
  have hj' : j' ≤ 8029 := by
    have hcf := daysToYear_closed j'
    have hle : daysToYear j' ≤ t / 86400000 := by
      generalize daysToYear j' = A at hsum'
      omega
    generalize daysToYear j' = B at hcf hle
    omega
  have hy : 1970 + j' ≤ 9999 := by omega
  have hsum12 : (monthLengths (isLeapYear (1970 + j'))).sum = daysInYear (1970 + j') := by
    cases hb : isLeapYear (1970 + j') <;> simp [monthLengths_sum, daysInYear, hb]
  obtain ⟨hm1, hm2, hm3⟩ := monthSplit_spec (monthLengths (isLeapYear (1970 + j'))) doy
    (by rw [hsum12]; exact hdoy)
  obtain ⟨mi, dom, hmeq⟩ :
      ∃ a b, monthSplit (monthLengths (isLeapYear (1970 + j'))) doy = (a, b) := ⟨_, _, rfl⟩
  rw [hmeq] at hm1 hm2 hm3
  simp only at hm1 hm2 hm3
  have hmi : mi < 12 := by simpa [monthLengths] using hm2
  have hdom : dom ≤ 30 := by
    have := monthLengths_getD_le (isLeapYear (1970 + j')) mi
    omega
  have hys1 : (yearSplit (t / 86400000 / 365 + 1) 1970 (t / 86400000)).1 = 1970 + j' := by
    rw [heq]
  have hys2 : (yearSplit (t / 86400000 / 365 + 1) 1970 (t / 86400000)).2 = doy := by
    rw [heq]
  have hms1 : (monthSplit (monthLengths (isLeapYear (1970 + j'))) doy).1 = mi := by
    rw [hmeq]
  have hms2 : (monthSplit (monthLengths (isLeapYear (1970 + j'))) doy).2 = dom := by
    rw [hmeq]
  simp only [toISOString, hys1, hys2, hms1, hms2, parseISODate, toList_mk]
  simp only [padNum]
  simp only [parseISOChars]
  simp only [digitVal_digitChar_mod]
  have hY : (1970 + j') / 10 / 10 / 10 % 10 * 1000 + (1970 + j') / 10 / 10 % 10 * 100
      + (1970 + j') / 10 % 10 * 10 + (1970 + j') % 10 = 1970 + j' := by omega
  have hM : (mi + 1) / 10 % 10 * 10 + (mi + 1) % 10 = mi + 1 := by omega
  have hD : (dom + 1) / 10 % 10 * 10 + (dom + 1) % 10 = dom + 1 := by omega
  have hH : t / 3600000 % 24 / 10 % 10 * 10 + t / 3600000 % 24 % 10 = t / 3600000 % 24 := by
    omega
  have hMI : t / 60000 % 60 / 10 % 10 * 10 + t / 60000 % 60 % 10 = t / 60000 % 60 := by omega
  have hS : t / 1000 % 60 / 10 % 10 * 10 + t / 1000 % 60 % 10 = t / 1000 % 60 := by omega
  have hF : t % 1000 / 10 / 10 % 10 * 100 + t % 1000 / 10 % 10 * 10 + t % 1000 % 10
      = t % 1000 := by omega
  rw [hY, hM, hD, hH, hMI, hS, hF]
  rw [show 1970 + j' - 1970 = j' by omega]
  simp only [Nat.add_sub_cancel]
  simp only [Option.some.injEq]
  generalize hSS : ((monthLengths (isLeapYear (1970 + j'))).take mi).sum = S at hm1
  generalize hAA : daysToYear j' = A at hsum'
  omega

/-- C6: persisting a store state (`saveDB`, which serializes timestamps to
ISO-8601 strings) and constructing a new `PostDB` over the resulting document
(`loadDB`, which parses them back) yields an identical post sequence — the
same posts in the same order with equal field values, timestamps restored to
equal instants — and the same `currentIndex`, for every state whose timestamps
lie before year 10000 (every instant a real `new Date()` produces). -/
theorem save_then_reload_roundtrip :
    ∀ data : PostDBData,
      (∀ p ∈ data.posts, p.timestamp < 253402300800000) →
      (loadDB (.parsed (saveDB data))).1.posts = data.posts
      ∧ (loadDB (.parsed (saveDB data))).1.currentIndex = data.currentIndex
      ∧ (loadDB (.parsed (saveDB data))).2 = false := by
  intro data hts
  refine ⟨?_, jsOrInt_some_zero _, rfl⟩
  simp only [loadDB, saveDB, Option.getD_some, List.map_map]
  have hid : ∀ p ∈ data.posts, (loadPost ∘ storePost) p = id p := by
    intro p hp
    simp only [Function.comp_apply, loadPost, storePost, id_eq]
    rw [parseISO_toISO p.timestamp (hts p hp)]
    rfl
  rw [List.map_congr_left hid, List.map_id]

/-- C6 witness: a two-post store (timestamps 0 and 1700000000123 ms) with
`currentIndex = 1` reloads identically. -/
theorem save_then_reload_roundtrip_witness :
    (∀ p ∈ (PostDBData.mk
        [⟨"a", "da", 0, none, none, none, none, none, "sa", none⟩,
         ⟨"b", "db", 1700000000123, some 4, some "twitter", none, some "t1", some "h1",
           "sb", some "AI Coding"⟩] 1 "1.0.0").posts, p.timestamp < 253402300800000)
    ∧ ((loadDB (.parsed (saveDB (PostDBData.mk
        [⟨"a", "da", 0, none, none, none, none, none, "sa", none⟩,
         ⟨"b", "db", 1700000000123, some 4, some "twitter", none, some "t1", some "h1",
           "sb", some "AI Coding"⟩] 1 "1.0.0")))).1.posts
        = (PostDBData.mk
        [⟨"a", "da", 0, none, none, none, none, none, "sa", none⟩,
         ⟨"b", "db", 1700000000123, some 4, some "twitter", none, some "t1", some "h1",
           "sb", some "AI Coding"⟩] 1 "1.0.0").posts
      ∧ (loadDB (.parsed (saveDB (PostDBData.mk
        [⟨"a", "da", 0, none, none, none, none, none, "sa", none⟩,
         ⟨"b", "db", 1700000000123, some 4, some "twitter", none, some "t1", some "h1",
           "sb", some "AI Coding"⟩] 1 "1.0.0")))).1.currentIndex
        = (PostDBData.mk
        [⟨"a", "da", 0, none, none, none, none, none, "sa", none⟩,
         ⟨"b", "db", 1700000000123, some 4, some "twitter", none, some "t1", some "h1",
           "sb", some "AI Coding"⟩] 1 "1.0.0").currentIndex
      ∧ (loadDB (.parsed (saveDB (PostDBData.mk
        [⟨"a", "da", 0, none, none, none, none, none, "sa", none⟩,
         ⟨"b", "db", 1700000000123, some 4, some "twitter", none, some "t1", some "h1",
           "sb", some "AI Coding"⟩] 1 "1.0.0")))).2 = false) :=
  ⟨by decide, save_then_reload_roundtrip _ (by decide)⟩

end Attn
